import Mathlib

/-!
# BTEM: the candle fetcher (get_data.js) and the account client (trader.js)

Both scripts are straight-line Node.js programs that talk to the outside world
only through library calls.  The embedding makes every such call explicit:

* what a script or a callback does is recorded as the library calls it made,
  in order, the error it threw (if any) and the module-level value it left
  behind (the global `data`, the constant `token`);
* what the platform hands to a script (file contents, the result of
  `JSON.parse`, the UUID, the clock, the signing primitives) is a field of
  `Host`, so every theorem holds for all behaviours of the platform.
-/

namespace BTEM

/-! ## JavaScript values -/

/-- The JavaScript values the two scripts can touch.  A finite number is kept as
its exact rational value (both zeros are `num 0`), `nan` is NaN; infinities,
symbols, big integers and functions are not modelled. -/
inductive JSVal where
  | undefined
  | null
  | bool (b : Bool)
  | num (q : ℚ)
  | nan
  | str (s : String)
  | arr (items : List JSVal)
  | obj (fields : List (String × JSVal))

/-- An exception travelling up the stack. -/
inductive JSError where
  /-- The result of `new Error(v)`: an `Error` whose message is `String(v)`. -/
  | ofValue (v : JSVal)
  /-- A `TypeError` raised by the language itself. -/
  | typeError (msg : String)
  /-- An error raised inside a library (file system, `JSON.parse`, signing). -/
  | library (name msg : String)

/-- ECMAScript `ToBoolean`: the test performed by `if (v)` and by `!v`. -/
def truthy : JSVal → Bool
  | .undefined => false
  | .null => false
  | .bool b => b
  | .num q => decide (q ≠ 0)
  | .nan => false
  | .str s => decide (s ≠ "")
  | .arr _ => true
  | .obj _ => true

/-- Property read `v.key`: a `TypeError` on `undefined` and `null`, the own
field of an object when it has one, `undefined` otherwise. -/
def getProp (v : JSVal) (key : String) : Except JSError JSVal :=
  match v with
  | .undefined => .error (.typeError ("Cannot read properties of undefined (reading " ++ key ++ ")"))
  | .null => .error (.typeError ("Cannot read properties of null (reading " ++ key ++ ")"))
  | .obj fields => .ok ((fields.lookup key).getD .undefined)
  | _ => .ok .undefined

/-! ## Requests, responses and observable behaviour -/

/-- The options object handed to `request`. -/
structure Options where
  method : String
  url : String
  headers : List (String × String)

/-- The response object `request` passes to its callback; only the status code
is ever read, and Node delivers it as an integer. -/
structure Response where
  statusCode : ℤ

/-- A call that leaves the script: the observable steps of a run. -/
inductive Call where
  | readFileSync (path : String)
  | jsonParse (text : JSVal)
  | uuidv4
  | sign (payload secret : JSVal)
  | request (options : Options)
  | consoleLog (v : JSVal)
  | consoleError (v : JSVal)

/-- What a callback did: the calls it made, in order, and the error it threw
(`none` when it ran to completion). -/
structure Outcome where
  calls : List Call
  threw : Option JSError

/-- The platform as seen by the scripts.  `readFileSync path` is the text of
the file (`fs.readFileSync(path).toString()`) or the error thrown when it cannot
be read; `jsonParse` is `JSON.parse`; `uuid` is what the one call `uuidv4()`
returns; `now` is the clock in seconds.  The last three fields are the inside
of the signing library: `secretKey v` is what it makes of a truthy
`secretOrPrivateKey` argument, the HMAC key or the error with which it refuses
the value (which values it refuses differs between its versions); `encode` is
the base64url form of the JSON text of an object and `hmac key text` the
base64url HMAC-SHA256 of a text under a key. -/
structure Host where
  readFileSync : String → Except JSError String
  jsonParse : JSVal → Except JSError JSVal
  uuid : String
  now : ℕ
  secretKey : JSVal → Except JSError String
  encode : JSVal → String
  hmac : String → String → String

mutual

/-- What is left of a value after `JSON.stringify` and `JSON.parse`, `none`
when the value has no JSON text: `undefined` has none and NaN becomes null. -/
def jsonValue : JSVal → Option JSVal
  | .undefined => none
  | .null => some .null
  | .bool b => some (.bool b)
  | .num q => some (.num q)
  | .nan => some .null
  | .str s => some (.str s)
  | .arr items => some (.arr (jsonItems items))
  | .obj fields => some (.obj (jsonFields fields))

/-- The items of an array after the round trip: an item without JSON text
becomes null. -/
def jsonItems : List JSVal → List JSVal
  | [] => []
  | v :: rest => (jsonValue v).getD .null :: jsonItems rest

/-- The fields of an object after the round trip: a field whose value has no
JSON text is dropped. -/
def jsonFields : List (String × JSVal) → List (String × JSVal)
  | [] => []
  | (k, v) :: rest =>
    match jsonValue v with
    | none => jsonFields rest
    | some w => (k, w) :: jsonFields rest

end

/-! ## get_data.js -/

namespace GetData

/-- Bytes that `URLSearchParams` leaves as they are (the
application/x-www-form-urlencoded percent-encode set is everything else). -/
def formSafe (b : ℕ) : Bool :=
  (48 ≤ b && b ≤ 57) || (65 ≤ b && b ≤ 90) || (97 ≤ b && b ≤ 122) ||
    b == 42 || b == 45 || b == 46 || b == 95

/-- Upper-case hexadecimal digit. -/
def hexDigit (n : ℕ) : Char :=
  if n < 10 then Char.ofNat (48 + n) else Char.ofNat (55 + n)

/-- Percent-encoding of one byte. -/
def percentByte (b : ℕ) : List Char :=
  ['%', hexDigit (b / 16), hexDigit (b % 16)]

/-- UTF-8 bytes of a character. -/
def utf8Bytes (c : Char) : List ℕ :=
  let n := c.toNat
  if n < 128 then [n]
  else if n < 2048 then [192 + n / 64, 128 + n % 64]
  else if n < 65536 then [224 + n / 4096, 128 + n / 64 % 64, 128 + n % 64]
  else [240 + n / 262144, 128 + n / 4096 % 64, 128 + n / 64 % 64, 128 + n % 64]

/-- One byte of a name or value in the urlencoded serialisation: space becomes
a plus sign, safe bytes stay, every other byte is percent-encoded. -/
def formByte (b : ℕ) : List Char :=
  if b == 32 then ['+'] else if formSafe b then [Char.ofNat b] else percentByte b

/-- The urlencoded form of one name or value. -/
def formEncode (s : String) : List Char :=
  s.data.flatMap fun c => (utf8Bytes c).flatMap formByte

/-- The urlencoded serialiser: `name=value` tuples joined by an ampersand. -/
def formSerialize : List (String × String) → List Char
  | [] => []
  | [(k, v)] => formEncode k ++ '=' :: formEncode v
  | (k, v) :: rest => formEncode k ++ '=' :: formEncode v ++ '&' :: formSerialize rest

/-- A `URLSearchParams` object: its list of name and value pairs. -/
structure URLSearchParams where
  list : List (String × String)

/-- Conversion of `URLSearchParams` to a string. -/
def URLSearchParams.toString (p : URLSearchParams) : String :=
  ⟨formSerialize p.list⟩

/-- A parsed URL with a special scheme: everything before the query (scheme,
host and path, as serialised) and the query, `none` when there is none. -/
structure URL where
  base : List Char
  query : Option (List Char)

/-- Code points the URL parser percent-encodes inside the query of a special
URL: controls, space, the double and single quote, number sign, angle brackets
and everything beyond tilde. -/
def queryUnsafe (b : ℕ) : Bool :=
  b ≤ 32 || b == 34 || b == 35 || b == 39 || b == 60 || b == 62 || 126 < b

/-- The query state of the URL parser. -/
def queryEncode (cs : List Char) : List Char :=
  cs.flatMap fun c => (utf8Bytes c).flatMap fun b =>
    if queryUnsafe b then percentByte b else [Char.ofNat b]

/-- The part of `new URL(s)` that matters for an absolute https URL without
query and fragment whose path is not empty: it serialises back to `s`. -/
def URL.new (s : String) : URL :=
  ⟨s.data, none⟩

/-- The `search` setter: the empty string clears the query; otherwise one
leading question mark is dropped and the rest goes through the query state. -/
def URL.setSearch (u : URL) (value : String) : URL :=
  match value.data with
  | [] => { u with query := none }
  | '?' :: rest => { u with query := some (queryEncode rest) }
  | cs => { u with query := some (queryEncode cs) }

/-- The URL serialiser behind `url.toString()`. -/
def URL.toString (u : URL) : String :=
  match u.query with
  | none => ⟨u.base⟩
  | some q => ⟨u.base ++ '?' :: q⟩

/-- The object literal `queries`, as the list of its own properties in
insertion order. -/
def queries : List (String × String) :=
  [("market", "KRW-BTC"), ("to", ""), ("count", "200")]

/-- The URL after `url.search = new URLSearchParams(queries)`. -/
def url : URL :=
  (URL.new "https://api.upbit.com/v1/candles/days").setSearch
    (URLSearchParams.toString ⟨queries⟩)

/-- The request options of the data fetcher. -/
def options : Options :=
  { method := "GET", url := url.toString, headers := [("accept", "application/json")] }

/-- The text of the diagnostic. -/
def diagnostic : JSVal :=
  .str "unable to get data(status != 200)"

/-- What get_data.js has done so far: the calls, the error thrown and the
global `data` (`none` while it has not been assigned). -/
structure Run where
  calls : List Call
  threw : Option JSError
  data : Option JSVal

/-- The top level of get_data.js: one call of `request`. -/
def main : Run :=
  { calls := [.request options], threw := none, data := none }

/-- The callback handed to `request`.  `resp` is `none` when the argument is
`undefined`, which is how `request` reports a transport error.

    if (err) throw new Error(err);
    else if (resp.statusCode != 200) console.error("unable to get data(status != 200)");
    data = JSON.parse(body);
-/
def callback (h : Host) (err : JSVal) (resp : Option Response) (body : JSVal) : Run :=
  if truthy err then
    { calls := [], threw := some (.ofValue err), data := none }
  else
    match resp with
    | none =>
      { calls := [], data := none,
        threw := some (.typeError "Cannot read properties of undefined (reading statusCode)") }
    | some r =>
      let said : List Call := if r.statusCode ≠ 200 then [.consoleError diagnostic] else []
      match h.jsonParse body with
      | .error e => { calls := said ++ [.jsonParse body], threw := some e, data := none }
      | .ok v => { calls := said ++ [.jsonParse body], threw := none, data := some v }

end GetData

/-! ## trader.js -/

namespace Trader

/-- A token of the jsonwebtoken library, seen through the three parts of its
compact serialisation: the header, the claims (the payload a decoder returns)
and the signature. -/
structure Jwt where
  header : JSVal
  claims : JSVal
  signature : String

/-- The text the signature is computed over. -/
def signingInput (h : Host) (header claims : JSVal) : String :=
  h.encode header ++ "." ++ h.encode claims

/-- The token as the string `sign` returns. -/
def Jwt.compact (h : Host) (t : Jwt) : String :=
  signingInput h t.header t.claims ++ "." ++ t.signature

/-- Validity of the HS256 signature of a token for a secret, by the rule for
HMAC signatures of RFC 7515: the HMAC of the signing input, computed again
under the key the library makes of that secret, is the signature. -/
def Jwt.verifies (h : Host) (t : Jwt) (secret : JSVal) : Bool :=
  match h.secretKey secret with
  | .ok key => t.signature == h.hmac key (signingInput h t.header t.claims)
  | .error _ => false

/-- The header `sign` writes when it is given no options. -/
def defaultHeader : JSVal :=
  .obj [("alg", .str "HS256"), ("typ", .str "JWT")]

/-- The call `sign(payload, secret)` of jsonwebtoken, for an object payload that
carries none of the registered claims and with no options, as trader.js calls
it.  A falsy secret is refused ("secretOrPrivateKey must have a value"); a
truthy one is turned into the HMAC key, which the library may refuse as well.
Then the payload is copied and the claim `iat` (the clock in seconds) is added
to the copy, which the library does unless the option `noTimestamp` is set.
The claims of the token are the JSON form of that object, and the signature is
the HMAC-SHA256 of header and claims under the key. -/
def sign (h : Host) (payload : List (String × JSVal)) (secret : JSVal) : Except JSError Jwt :=
  if truthy secret then
    match h.secretKey secret with
    | .error e => .error e
    | .ok key =>
      let claims : JSVal := .obj (jsonFields (payload ++ [("iat", .num h.now)]))
      .ok { header := defaultHeader, claims := claims,
            signature := h.hmac key (signingInput h defaultHeader claims) }
  else
    .error (.library "Error" "secretOrPrivateKey must have a value")

/-- The constant `server_url`. -/
def server_url : String :=
  "https://api.upbit.com"

/-- The object literal `payload`, given the value of `keys.access` and the
result of `uuidv4()`. -/
def payload (access : JSVal) (nonce : String) : List (String × JSVal) :=
  [("access_key", access), ("nonce", .str nonce)]

/-- The object literal `options`, given the token string. -/
def options (token : String) : Options :=
  { method := "GET", url := server_url ++ "/v1/accounts",
    headers := [("Authorization", "Bearer " ++ token)] }

/-- What trader.js has done so far: the calls, the error thrown and the
module-level constant `token` (`none` while it has not been initialised). -/
structure Run where
  calls : List Call
  threw : Option JSError
  token : Option Jwt

/-- The top level of trader.js, statement by statement: read keys.json, parse
it, read `keys.access`, call `uuidv4()`, read `keys.secret`, sign, and hand the
options to `request`.  The first statement that throws ends the run. -/
def main (h : Host) : Run :=
  match h.readFileSync "keys.json" with
  | .error e => { calls := [.readFileSync "keys.json"], threw := some e, token := none }
  | .ok text =>
    match h.jsonParse (.str text) with
    | .error e =>
      { calls := [.readFileSync "keys.json", .jsonParse (.str text)], threw := some e,
        token := none }
    | .ok keys =>
      match getProp keys "access" with
      | .error e =>
        { calls := [.readFileSync "keys.json", .jsonParse (.str text)], threw := some e,
          token := none }
      | .ok access =>
        match getProp keys "secret" with
        | .error e =>
          { calls := [.readFileSync "keys.json", .jsonParse (.str text), .uuidv4],
            threw := some e, token := none }
        | .ok secret =>
          match sign h (payload access h.uuid) secret with
          | .error e =>
            { calls := [.readFileSync "keys.json", .jsonParse (.str text), .uuidv4,
                .sign (.obj (payload access h.uuid)) secret],
              threw := some e, token := none }
          | .ok t =>
            { calls := [.readFileSync "keys.json", .jsonParse (.str text), .uuidv4,
                .sign (.obj (payload access h.uuid)) secret, .request (options (t.compact h))],
              threw := none, token := some t }

/-- The callback handed to `request`.

    if (error) throw new Error(error)
    console.log(body)
-/
def callback (error : JSVal) (_response : Option Response) (body : JSVal) : Outcome :=
  if truthy error then
    { calls := [], threw := some (.ofValue error) }
  else
    { calls := [.consoleLog body], threw := none }

end Trader

/-! ## A concrete platform -/

/-- Text of a credential file. -/
def sampleKeysText : String :=
  "\x7b\"access\":\"ak\",\"secret\":\"sk\"\x7d"

/-- Text of a response body with two candles. -/
def sampleCandlesText : String :=
  "[\x7b\"market\":\"KRW-BTC\",\"trade_price\":1.5\x7d,\x7b\"market\":\"KRW-BTC\",\"trade_price\":2\x7d]"

/-- The two candles of `sampleCandlesText`. -/
def sampleCandles : List JSVal :=
  [.obj [("market", .str "KRW-BTC"), ("trade_price", .num (3 / 2))],
   .obj [("market", .str "KRW-BTC"), ("trade_price", .num 2)]]

/-- A platform on which keys.json holds `sampleKeysText`; its `JSON.parse`
knows the two sample texts and rejects every other argument, and its signing
library takes every string as HMAC key. -/
def sampleHost : Host where
  readFileSync path :=
    if path = "keys.json" then .ok sampleKeysText
    else .error (.library "Error" "ENOENT: no such file or directory")
  jsonParse v :=
    match v with
    | .str s =>
      if s = sampleKeysText then .ok (.obj [("access", .str "ak"), ("secret", .str "sk")])
      else if s = sampleCandlesText then .ok (.arr sampleCandles)
      else .error (.library "SyntaxError" "Unexpected token")
    | _ => .error (.library "SyntaxError" "Unexpected token")
  uuid := "110ec58a-a0f2-4ac4-8393-c866d813b8d1"
  now := 1700000000
  secretKey v :=
    match v with
    | .str s => .ok s
    | _ => .error (.library "Error" "secretOrPrivateKey is not valid key material")
  encode _ := "e30"
  hmac key text := key ++ "/" ++ text

/-- The token a run on `sampleHost` builds. -/
def sampleToken : Trader.Jwt :=
  { header := Trader.defaultHeader,
    claims := .obj [("access_key", .str "ak"),
      ("nonce", .str "110ec58a-a0f2-4ac4-8393-c866d813b8d1"), ("iat", .num (1700000000 : ℕ))],
    signature := "sk/e30.e30" }

/-- The same platform without keys.json. -/
def bareHost : Host :=
  { sampleHost with
    readFileSync := fun _ => .error (.library "Error" "ENOENT: no such file or directory") }

/-! ## Lemmas -/

theorem sampleTexts_ne : sampleCandlesText ≠ sampleKeysText := by
  decide

theorem sign_eq_ok (h : Host) (payload : List (String × JSVal)) (secret : JSVal)
    (t : Trader.Jwt) (hsign : Trader.sign h payload secret = .ok t) :
    truthy secret = true ∧ ∃ key, h.secretKey secret = .ok key ∧
      t = { header := Trader.defaultHeader,
            claims := .obj (jsonFields (payload ++ [("iat", .num h.now)])),
            signature := h.hmac key
              (Trader.signingInput h Trader.defaultHeader
                (.obj (jsonFields (payload ++ [("iat", .num h.now)])))) } := by
  unfold Trader.sign at hsign
  cases ht : truthy secret with
  | false => simp [ht] at hsign
  | true =>
    cases hk : h.secretKey secret with
    | error e => simp [ht, hk] at hsign
    | ok key =>
      simp [ht, hk] at hsign
      exact ⟨rfl, key, rfl, hsign.symm⟩

theorem sign_of_key (h : Host) (payload : List (String × JSVal)) (secret : JSVal)
    (key : String) (htruthy : truthy secret = true) (hkey : h.secretKey secret = .ok key) :
    Trader.sign h payload secret =
      .ok { header := Trader.defaultHeader,
            claims := .obj (jsonFields (payload ++ [("iat", .num h.now)])),
            signature := h.hmac key
              (Trader.signingInput h Trader.defaultHeader
                (.obj (jsonFields (payload ++ [("iat", .num h.now)])))) } := by
  simp [Trader.sign, htruthy, hkey]

theorem accounts_url : Trader.server_url ++ "/v1/accounts" = "https://api.upbit.com/v1/accounts" := by
  decide

/-! ## The data fetcher -/

/-- C6: the request of the data fetcher has method GET, the single header
accept: application/json, and the URL
https://api.upbit.com/v1/candles/days?market=KRW-BTC&to=&count=200, the query
being the serialisation of market, to and count in that order. -/
theorem fetcher_request :
    GetData.main.calls =
      [Call.request
        { method := "GET",
          url := "https://api.upbit.com/v1/candles/days?market=KRW-BTC&to=&count=200",
          headers := [("accept", "application/json")] }] ∧
    GetData.main.threw = none ∧
    GetData.queries.map Prod.fst = ["market", "to", "count"] ∧
    GetData.URLSearchParams.toString ⟨GetData.queries⟩ = "market=KRW-BTC&to=&count=200" := by
  refine ⟨?_, rfl, rfl, by decide⟩
  have hurl : GetData.url.toString
      = "https://api.upbit.com/v1/candles/days?market=KRW-BTC&to=&count=200" := by decide
  simp [GetData.main, GetData.options, hurl]

/-- C2: on a response without transport error whose status is not 200 the
callback of the data fetcher writes the diagnostic once and then calls
JSON.parse on the body; it throws only what that call throws. -/
theorem fetcher_non200 (h : Host) (err : JSVal) (resp : Response) (body : JSVal)
    (herr : truthy err = false) (hstatus : resp.statusCode ≠ 200) :
    (GetData.callback h err (some resp) body).calls
        = [Call.consoleError (.str "unable to get data(status != 200)"), Call.jsonParse body] ∧
      (∀ v, h.jsonParse body = .ok v →
        (GetData.callback h err (some resp) body).threw = none ∧
        (GetData.callback h err (some resp) body).data = some v) ∧
      (∀ e, h.jsonParse body = .error e →
        (GetData.callback h err (some resp) body).threw = some e) := by
  refine ⟨?_, ?_, ?_⟩
  · cases hp : h.jsonParse body <;> simp [GetData.callback, herr, hstatus, hp, GetData.diagnostic]
  · intro v hv
    simp [GetData.callback, herr, hv]
  · intro e he
    simp [GetData.callback, herr, he]

/-- Instance of `fetcher_non200`: status 404 with a body that is not JSON. -/
theorem fetcher_non200_witness :
    truthy .null = false ∧ (404 : ℤ) ≠ 200 ∧
    (GetData.callback sampleHost .null (some ⟨404⟩) (.str "Not Found")).calls
        = [Call.consoleError (.str "unable to get data(status != 200)"),
           Call.jsonParse (.str "Not Found")] :=
  ⟨rfl, by decide, (fetcher_non200 sampleHost .null ⟨404⟩ (.str "Not Found") rfl (by decide)).1⟩

/-- C4: when the body is the JSON text of an array of N records and the
response has status 200 and no transport error, the callback stores exactly
those N records in `data`, in order and unchanged, and does nothing else than
the one call of JSON.parse. -/
theorem fetcher_stores_records (h : Host) (err : JSVal) (resp : Response) (text : String)
    (N : ℕ) (records : List JSVal)
    (herr : truthy err = false) (hstatus : resp.statusCode = 200)
    (hparse : h.jsonParse (.str text) = .ok (.arr records)) (hN : records.length = N) :
    GetData.callback h err (some resp) (.str text) =
        { calls := [Call.jsonParse (.str text)], threw := none, data := some (.arr records) } ∧
      ∃ stored : List JSVal,
        (GetData.callback h err (some resp) (.str text)).data = some (.arr stored) ∧
        stored.length = N ∧ ∀ i, stored.get? i = records.get? i := by
  have hrun : GetData.callback h err (some resp) (.str text) =
      { calls := [Call.jsonParse (.str text)], threw := none, data := some (.arr records) } := by
    simp [GetData.callback, herr, hstatus, hparse]
  exact ⟨hrun, records, by rw [hrun], hN, fun _ => rfl⟩

/-- Instance of `fetcher_stores_records`: a body with two candles. -/
theorem fetcher_stores_records_witness :
    truthy .null = false ∧
    sampleHost.jsonParse (.str sampleCandlesText) = .ok (.arr sampleCandles) ∧
    GetData.callback sampleHost .null (some ⟨200⟩) (.str sampleCandlesText) =
      { calls := [Call.jsonParse (.str sampleCandlesText)], threw := none,
        data := some (.arr sampleCandles) } :=
  ⟨rfl, by simp [sampleHost, sampleTexts_ne],
    (fetcher_stores_records sampleHost .null ⟨200⟩ sampleCandlesText 2 sampleCandles rfl rfl
      (by simp [sampleHost, sampleTexts_ne]) rfl).1⟩

/-- C10, as stated, fails: with the error argument null and a body that is
valid JSON, the callback still throws when the response is undefined, on
reading its status code, before any diagnostic and before the parse. -/
theorem fetcher_callback_counterexample :
    truthy .null = false ∧
      sampleHost.jsonParse (.str sampleCandlesText) = .ok (.arr sampleCandles) ∧
      GetData.callback sampleHost .null none (.str sampleCandlesText) =
        { calls := [], data := none,
          threw := some
            (.typeError "Cannot read properties of undefined (reading statusCode)") } := by
  refine ⟨rfl, ?_, rfl⟩
  simp [sampleHost, sampleTexts_ne]

/-- C10, amended: for every error argument, response (also undefined) and
body, the callback of the data fetcher runs to completion exactly when the
error argument is falsy, the response is not undefined and JSON.parse accepts
the body; the status code has no influence on whether it throws; the
diagnostic is written exactly when the error argument is falsy, the response
is there and its status code is not 200; with a falsy error and an undefined
response it throws a TypeError without having made any call. -/
theorem fetcher_callback_completes_iff (h : Host) (err : JSVal) (resp : Option Response)
    (body : JSVal) :
    ((GetData.callback h err resp body).threw = none ↔
        truthy err = false ∧ resp ≠ none ∧ ∃ v, h.jsonParse body = .ok v) ∧
      (∀ r other : Response,
        (GetData.callback h err (some other) body).threw
          = (GetData.callback h err (some r) body).threw) ∧
      (Call.consoleError GetData.diagnostic ∈ (GetData.callback h err resp body).calls ↔
        truthy err = false ∧ ∃ r, resp = some r ∧ r.statusCode ≠ 200) ∧
      (truthy err = false →
        (GetData.callback h err none body).calls = [] ∧
        ∃ msg, (GetData.callback h err none body).threw = some (.typeError msg)) := by
  refine ⟨?_, ?_, ?_, fun he => by simp [GetData.callback, he]⟩
  · cases he : truthy err <;> cases resp <;> cases hp : h.jsonParse body <;>
      simp [GetData.callback, he, hp]
  · intro r other
    cases he : truthy err <;> cases hp : h.jsonParse body <;> simp [GetData.callback, he, hp]
  · cases he : truthy err
    · cases resp with
      | none => simp [GetData.callback, he]
      | some r =>
        cases hp : h.jsonParse body <;> by_cases hs : r.statusCode = 200 <;>
          simp [GetData.callback, he, hp, hs]
    · simp [GetData.callback, he]

/-! ## The account client -/

/-- C3: without transport error the callback of the account client makes one
call, console.log of the body it was given, and does not throw; the response,
and so its status code, has no influence. -/
theorem account_callback_prints (error : JSVal) (response : Option Response) (body : JSVal)
    (herr : truthy error = false) :
    Trader.callback error response body = { calls := [Call.consoleLog body], threw := none } ∧
      ∀ other : Option Response,
        Trader.callback error other body = Trader.callback error response body := by
  simp [Trader.callback, herr]

/-- Instance of `account_callback_prints`: an error body under status 401. -/
theorem account_callback_prints_witness :
    truthy .null = false ∧
    Trader.callback .null (some ⟨401⟩) (.str "no_authorization_token") =
      { calls := [Call.consoleLog (.str "no_authorization_token")], threw := none } :=
  ⟨rfl, (account_callback_prints .null (some ⟨401⟩) (.str "no_authorization_token") rfl).1⟩

/-- C8: handed a transport error, either callback throws the Error built from
it and makes no call at all, whatever the response and the body are. -/
theorem callbacks_rethrow (h : Host) (err : JSVal) (resp : Option Response) (body : JSVal)
    (herr : truthy err = true) :
    GetData.callback h err resp body =
        { calls := [], threw := some (.ofValue err), data := none } ∧
      Trader.callback err resp body = { calls := [], threw := some (.ofValue err) } := by
  simp [GetData.callback, Trader.callback, herr]

/-- Instance of `callbacks_rethrow`: a DNS failure, reported without response
and body. -/
theorem callbacks_rethrow_witness :
    truthy (.obj [("code", .str "ENOTFOUND")]) = true ∧
    Trader.callback (.obj [("code", .str "ENOTFOUND")]) none .undefined =
      { calls := [], threw := some (.ofValue (.obj [("code", .str "ENOTFOUND")])) } :=
  ⟨rfl, (callbacks_rethrow sampleHost (.obj [("code", .str "ENOTFOUND")]) none .undefined rfl).2⟩

/-- C5: when keys.json cannot be read, or its text is rejected by JSON.parse,
the account client throws, and the only calls it has made are the read and (in
the second case) the parse: no UUID, no signature, no request. -/
theorem account_bad_credentials (h : Host)
    (hbad : (∃ e, h.readFileSync "keys.json" = .error e) ∨
      ∃ text e, h.readFileSync "keys.json" = .ok text ∧ h.jsonParse (.str text) = .error e) :
    (∃ e, (Trader.main h).threw = some e) ∧ (Trader.main h).token = none ∧
      ((Trader.main h).calls = [Call.readFileSync "keys.json"] ∨
        ∃ text, (Trader.main h).calls
          = [Call.readFileSync "keys.json", Call.jsonParse (.str text)]) ∧
      Call.uuidv4 ∉ (Trader.main h).calls ∧
      (∀ p s, Call.sign p s ∉ (Trader.main h).calls) ∧
      (∀ o, Call.request o ∉ (Trader.main h).calls) := by
  rcases hbad with ⟨e, hr⟩ | ⟨text, e, hr, hp⟩
  · simp [Trader.main, hr]
  · simp [Trader.main, hr, hp]

/-- Instance of `account_bad_credentials`: no keys.json. -/
theorem account_bad_credentials_witness :
    (∃ e, bareHost.readFileSync "keys.json" = .error e) ∧
    (Trader.main bareHost).calls = [Call.readFileSync "keys.json"] ∧
    (∀ o, Call.request o ∉ (Trader.main bareHost).calls) :=
  ⟨⟨_, rfl⟩,
    (account_bad_credentials bareHost (Or.inl ⟨_, rfl⟩)).2.2.1.resolve_right
      (by simp [Trader.main, bareHost]),
    (account_bad_credentials bareHost (Or.inl ⟨_, rfl⟩)).2.2.2.2.2⟩

theorem sampleHost_main :
    Trader.main sampleHost =
      { calls := [Call.readFileSync "keys.json", Call.jsonParse (.str sampleKeysText),
          Call.uuidv4,
          Call.sign (.obj [("access_key", .str "ak"),
            ("nonce", .str "110ec58a-a0f2-4ac4-8393-c866d813b8d1")]) (.str "sk"),
          Call.request
            { method := "GET", url := "https://api.upbit.com/v1/accounts",
              headers := [("Authorization", "Bearer e30.e30.sk/e30.e30")] }],
        threw := none,
        token := some
          { header := Trader.defaultHeader,
            claims := .obj [("access_key", .str "ak"),
              ("nonce", .str "110ec58a-a0f2-4ac4-8393-c866d813b8d1"),
              ("iat", .num ((1700000000 : ℕ) : ℚ))],
            signature := "sk/e30.e30" } } := by
  rfl

/-- C7: for every credential file and every nonce, whenever the signing of the
payload under the secret returns a token the account client makes exactly one
request, with method GET, the URL https://api.upbit.com/v1/accounts and the
one header Authorization whose value is "Bearer " followed by that token; and
it makes no request of any other kind: every request it makes is this one. -/
theorem account_request (h : Host) :
    (∀ text keys access secret t,
        h.readFileSync "keys.json" = .ok text →
        h.jsonParse (.str text) = .ok keys →
        getProp keys "access" = .ok access →
        getProp keys "secret" = .ok secret →
        Trader.sign h (Trader.payload access h.uuid) secret = .ok t →
        Trader.main h =
          { calls := [Call.readFileSync "keys.json", Call.jsonParse (.str text), Call.uuidv4,
              Call.sign (.obj (Trader.payload access h.uuid)) secret,
              Call.request
                { method := "GET", url := "https://api.upbit.com/v1/accounts",
                  headers := [("Authorization", "Bearer " ++ t.compact h)] }],
            threw := none, token := some t }) ∧
      ∀ o, Call.request o ∈ (Trader.main h).calls →
        ∃ text keys access secret t,
          h.readFileSync "keys.json" = .ok text ∧
          h.jsonParse (.str text) = .ok keys ∧
          getProp keys "access" = .ok access ∧
          getProp keys "secret" = .ok secret ∧
          Trader.sign h (Trader.payload access h.uuid) secret = .ok t ∧
          (Trader.main h).token = some t ∧
          o = { method := "GET", url := "https://api.upbit.com/v1/accounts",
                headers := [("Authorization", "Bearer " ++ t.compact h)] } := by
  refine ⟨?_, ?_⟩
  · intro text keys access secret t hread hparse haccess hsecret hsign
    simp [Trader.main, hread, hparse, haccess, hsecret, hsign, Trader.options, accounts_url]
  · intro o ho
    unfold Trader.main at ho ⊢
    cases hr : h.readFileSync "keys.json" with
    | error e => simp [hr] at ho
    | ok text =>
      cases hp : h.jsonParse (.str text) with
      | error e => simp [hr, hp] at ho
      | ok keys =>
        cases ha : getProp keys "access" with
        | error e => simp [hr, hp, ha] at ho
        | ok access =>
          cases hk : getProp keys "secret" with
          | error e => simp [hr, hp, ha, hk] at ho
          | ok secret =>
            cases hs : Trader.sign h (Trader.payload access h.uuid) secret with
            | error e => simp [hr, hp, ha, hk, hs] at ho
            | ok t =>
              simp [hr, hp, ha, hk, hs, Trader.options, accounts_url] at ho
              refine ⟨text, keys, access, secret, t, rfl, hp, ha, hk, hs, ?_, ho⟩
              simp [hp, ha, hk, hs]

/-- Instance of `account_request`: the credentials ak and sk. -/
theorem account_request_witness :
    sampleHost.readFileSync "keys.json" = .ok sampleKeysText ∧
    Trader.sign sampleHost (Trader.payload (.str "ak") sampleHost.uuid) (.str "sk")
      = .ok sampleToken ∧
    Trader.main sampleHost =
      { calls := [Call.readFileSync "keys.json", Call.jsonParse (.str sampleKeysText),
          Call.uuidv4,
          Call.sign (.obj (Trader.payload (.str "ak") sampleHost.uuid)) (.str "sk"),
          Call.request
            { method := "GET", url := "https://api.upbit.com/v1/accounts",
              headers := [("Authorization", "Bearer " ++ sampleToken.compact sampleHost)] }],
        threw := none, token := some sampleToken } :=
  ⟨rfl, rfl,
    (account_request sampleHost).1 sampleKeysText
      (.obj [("access", .str "ak"), ("secret", .str "sk")]) (.str "ak") (.str "sk") sampleToken
      rfl rfl rfl rfl rfl⟩

/-- C1, as stated, fails: the payload inside the token of a run with the
credentials ak and sk has three fields, the third being `iat`. -/
theorem token_claims_counterexample :
    (Trader.main sampleHost).token.map Trader.Jwt.claims =
        some (.obj [("access_key", .str "ak"),
          ("nonce", .str "110ec58a-a0f2-4ac4-8393-c866d813b8d1"),
          ("iat", .num ((1700000000 : ℕ) : ℚ))]) ∧
      (Trader.main sampleHost).token.map Trader.Jwt.claims ≠
        some (.obj [("access_key", .str "ak"),
          ("nonce", .str "110ec58a-a0f2-4ac4-8393-c866d813b8d1")]) := by
  rw [sampleHost_main]
  simp

/-- C1, amended: for every credential record with string fields `access` and
`secret` and every nonce produced by the UUID generator, the token the account
client builds is the signature of a payload that decodes to exactly three
fields, access_key equal to the `access` of the file, nonce equal to the
generated v4 UUID, and `iat`, the time of signing in seconds (no other field),
and the signature of the token verifies against the `secret` of the file.
(The payload the client itself hands to the signer has the first two fields
only; the token exists exactly when the signing library takes the secret as a
key, which is the second part of the statement.) -/
theorem token_claims (h : Host) (text : String) (keys : JSVal) (a s : String)
    (hread : h.readFileSync "keys.json" = .ok text)
    (hparse : h.jsonParse (.str text) = .ok keys)
    (haccess : getProp keys "access" = .ok (.str a))
    (hsecret : getProp keys "secret" = .ok (.str s)) :
    (∀ t, (Trader.main h).token = some t →
        Call.sign (.obj [("access_key", .str a), ("nonce", .str h.uuid)]) (.str s)
          ∈ (Trader.main h).calls ∧
        t.claims
          = .obj [("access_key", .str a), ("nonce", .str h.uuid), ("iat", .num h.now)] ∧
        t.verifies h (.str s) = true) ∧
      ((∃ t, (Trader.main h).token = some t) ↔
        s ≠ "" ∧ ∃ key, h.secretKey (.str s) = .ok key) := by
  cases hsign : Trader.sign h (Trader.payload (.str a) h.uuid) (.str s) with
  | error e =>
    have hmain : (Trader.main h).token = none := by
      simp [Trader.main, hread, hparse, haccess, hsecret, hsign]
    refine ⟨fun t ht => ?_, ?_⟩
    · rw [hmain] at ht
      cases ht
    · rw [hmain]
      constructor
      · rintro ⟨t, ht⟩
        cases ht
      · rintro ⟨hne, key, hkey⟩
        have htruthy : truthy (.str s) = true := by simp [truthy, hne]
        rw [sign_of_key h _ _ key htruthy hkey] at hsign
        cases hsign
  | ok t0 =>
    obtain ⟨htruthy, key, hkey, ht0⟩ := sign_eq_ok h _ _ _ hsign
    have hmain : (Trader.main h).token = some t0 := by
      simp [Trader.main, hread, hparse, haccess, hsecret, hsign]
    have hcalls : Call.sign (.obj [("access_key", .str a), ("nonce", .str h.uuid)]) (.str s)
        ∈ (Trader.main h).calls := by
      simp only [Trader.main, hread, hparse, haccess, hsecret, hsign]
      simp [Trader.payload]
    refine ⟨fun t ht => ?_, ?_⟩
    · rw [hmain] at ht
      simp only [Option.some.injEq] at ht
      subst ht
      refine ⟨hcalls, ?_, ?_⟩
      · rw [ht0]
        simp [Trader.payload, jsonFields, jsonValue]
      · rw [ht0]
        simp [Trader.Jwt.verifies, hkey]
    · constructor
      · intro _
        refine ⟨?_, key, hkey⟩
        intro hs
        subst hs
        simp [truthy] at htruthy
      · intro _
        exact ⟨t0, hmain⟩

/-- Instance of `token_claims`: the credentials ak and sk. -/
theorem token_claims_witness :
    sampleHost.readFileSync "keys.json" = .ok sampleKeysText ∧
    (Trader.main sampleHost).token = some sampleToken ∧
    sampleToken.claims = .obj [("access_key", .str "ak"), ("nonce", .str sampleHost.uuid),
        ("iat", .num sampleHost.now)] ∧
    sampleToken.verifies sampleHost (.str "sk") = true :=
  ⟨rfl, rfl,
    ((token_claims sampleHost sampleKeysText
      (.obj [("access", .str "ak"), ("secret", .str "sk")]) "ak" "sk" rfl rfl rfl rfl).1
        sampleToken rfl).2⟩

end BTEM
